import Mathlib

-- Shallow embedding of the socket.io + Redis chat server variants.
-- Pub/sub variant: src/unnamed/part_001; log (stream) variant: src/unnamed/part_002;
-- rooms variant: src/unnamed/part_003.

-- ===== Pub/sub variant (src/unnamed/part_001) =====

-- const REDIS_CHANNEL = "chat-messages"
def REDIS_CHANNEL : String := "chat-messages"

-- Process-local state: the set of currently connected sockets (io.sockets, as a list
-- of socket ids) and the list of "message" listeners registered on subClient (one
-- onMessage closure per connection, tagged here by the owning socket id).
structure PubSubState where
  connected : List String
  listeners : List String
deriving DecidableEq

def initialPubSub : PubSubState := { connected := [], listeners := [] }

inductive PEv where
  | connect (c : String)
  | disconnect (c : String)
deriving DecidableEq

-- io.on("connection") appends the socket and registers one onMessage listener;
-- the disconnect handler removes the socket and calls
-- subClient.removeListener("message", onMessage) for exactly that closure.
def applyPEv (st : PubSubState) : PEv → PubSubState
  | PEv.connect c =>
      { connected := st.connected ++ [c], listeners := st.listeners ++ [c] }
  | PEv.disconnect c =>
      { connected := st.connected.erase c, listeners := st.listeners.erase c }

def runPEvents (evs : List PEv) : PubSubState :=
  evs.foldl applyPEv initialPubSub

-- One delivery of a published message by the broker to the subscriber client:
-- the Node event emitter invokes every registered "message" listener once; each
-- listener body is onMessage, which on a channel match runs
-- io.emit("new-message", ...), i.e. sends one copy to every connected socket.
def brokerDeliver (st : PubSubState) (channel msg : String) : List (String × String) :=
  (st.listeners.map (fun _l =>
    if channel == REDIS_CHANNEL then st.connected.map (fun c => (c, msg)) else [])).flatten

-- Number of copies of the message that socket c receives from this one delivery.
def copiesReceived (st : PubSubState) (channel msg c : String) : Nat :=
  (brokerDeliver st channel msg).countP (fun p => p.1 == c)

-- ===== Theorems: claims C1 and C10 =====

/-- Claim C1: with two local connections registered, a single broker delivery of one
published event hands each connection two copies, not one — every registered
per-socket listener runs io.emit to the whole connection set, so the fan-out
multiplies by the number of registered connections. -/
theorem pubsub_each_delivery_duplicated :
    copiesReceived (runPEvents [PEv.connect ("c1"), PEv.connect ("c2")])
      ("chat-messages") ("hello") ("c1") = 2
    ∧ copiesReceived (runPEvents [PEv.connect ("c1"), PEv.connect ("c2")])
      ("chat-messages") ("hello") ("c2") = 2
    ∧ (runPEvents [PEv.connect ("c1"), PEv.connect ("c2")]).connected.length = 2 := by
  decide

theorem listeners_eq_connected (evs : List PEv) :
    ∀ st : PubSubState, st.listeners = st.connected →
      (evs.foldl applyPEv st).listeners = (evs.foldl applyPEv st).connected := by
  induction evs with
  | nil => intro st h; exact h
  | cons e rest ih =>
      intro st h
      have hstep : (applyPEv st e).listeners = (applyPEv st e).connected := by
        cases e with
        | connect c => simp [applyPEv, h]
        | disconnect c => simp [applyPEv, h]
      simpa using ih (applyPEv st e) hstep

/-- Claim C10: after any sequence of connect/disconnect events, the number of
registered "message" listeners on the subscriber client equals the number of
currently connected local sockets: connect registers exactly one listener and
disconnect removes exactly that listener. -/
theorem message_listener_count_invariant (evs : List PEv) :
    (runPEvents evs).listeners.length = (runPEvents evs).connected.length := by
  have h := listeners_eq_connected evs initialPubSub rfl
  simpa [runPEvents] using congrArg List.length h

-- ===== Log (stream) variant: broker side (src/unnamed/part_002) =====

-- const STREAM_KEY = "chat-messages"; const CONSUMER_GROUP = "chat-group"
def STREAM_KEY : String := "chat-messages"

def CONSUMER_GROUP : String := "chat-group"

-- One entry of the Redis stream: a broker-assigned id and the flat field list.
structure StreamEntry where
  eid : Nat
  fields : List String
deriving DecidableEq

-- Broker-held consumer-group state for CONSUMER_GROUP over STREAM_KEY:
-- the stream contents, the group's last-delivered id, and the pending entries
-- list (entries delivered to some consumer but not yet XACKed).
structure BrokerState where
  stream : List StreamEntry
  lastDeliveredId : Nat
  pending : List (Nat × String)
deriving DecidableEq

-- XREADGROUP GROUP chat-group <consumer> COUNT 10 BLOCK 5000 STREAMS chat-messages ">"
-- The ">" id asks only for entries never delivered to the group: those with id above
-- lastDeliveredId.  Delivered entries advance lastDeliveredId and enter the pending list.
def xreadNew (s : BrokerState) (consumer : String) : BrokerState × List StreamEntry :=
  let batch := (s.stream.filter (fun e => s.lastDeliveredId < e.eid)).take 10
  let newLast := batch.foldl (fun acc e => max acc e.eid) s.lastDeliveredId
  ({ s with lastDeliveredId := newLast,
            pending := s.pending ++ batch.map (fun e => (e.eid, consumer)) }, batch)

-- XACK chat-messages chat-group <id>: remove the entry from the pending list.
def xack (s : BrokerState) (id : Nat) : BrokerState :=
  { s with pending := s.pending.filter (fun p => p.1 != id) }

-- One successful iteration of consumeStream's body (src/unnamed/part_002 lines 85-120):
-- read a batch with ">", emit each entry locally, XACK each entry.  Returns the broker
-- state afterwards and the ids fanned out locally this iteration.
def consumeStep (s : BrokerState) (consumer : String) : BrokerState × List Nat :=
  let r := xreadNew s consumer
  (r.2.foldl (fun acc e => xack acc e.eid) r.1, r.2.map (fun e => e.eid))

-- n iterations of the consume loop; collects every id fanned out locally.
def consumeRun (s : BrokerState) (consumer : String) : Nat → List Nat
  | 0 => []
  | Nat.succ n =>
      (consumeStep s consumer).2 ++ consumeRun (consumeStep s consumer).1 consumer n

-- A broker state in which entry 1 was delivered to consumer-100 (a previous process
-- incarnation) but never acknowledged: it sits in the pending list and the group's
-- lastDeliveredId has already passed it.
def entry1 : StreamEntry :=
  { eid := 1, fields := [("id"), ("a"), ("message"), ("m"), ("timestamp"), ("t")] }

def pendingS0 : BrokerState :=
  { stream := [entry1], lastDeliveredId := 1, pending := [(1, ("consumer-100"))] }

theorem foldl_max_le_init (l : List StreamEntry) :
    ∀ a : Nat, a ≤ l.foldl (fun acc e => max acc e.eid) a := by
  induction l with
  | nil => intro a; exact Nat.le_refl a
  | cons x xs ih =>
      intro a
      exact Nat.le_trans (Nat.le_max_left a x.eid) (ih (max a x.eid))

theorem mem_xreadNew_batch (s : BrokerState) (c : String) (e : StreamEntry)
    (h : e ∈ (xreadNew s c).2) : s.lastDeliveredId < e.eid := by
  have h1 : e ∈ s.stream.filter (fun e => s.lastDeliveredId < e.eid) :=
    List.mem_of_mem_take h
  have h2 := (List.mem_filter.mp h1).2
  exact of_decide_eq_true h2

theorem foldl_xack_last (batch : List StreamEntry) :
    ∀ s : BrokerState,
      (batch.foldl (fun acc e => xack acc e.eid) s).lastDeliveredId = s.lastDeliveredId := by
  induction batch with
  | nil => intro s; rfl
  | cons x xs ih => intro s; simpa [xack] using ih (xack s x.eid)

theorem consumeStep_last_mono (s : BrokerState) (c : String) :
    s.lastDeliveredId ≤ (consumeStep s c).1.lastDeliveredId := by
  show s.lastDeliveredId ≤
    ((xreadNew s c).2.foldl (fun acc e => xack acc e.eid) (xreadNew s c).1).lastDeliveredId
  rw [foldl_xack_last]
  exact foldl_max_le_init _ s.lastDeliveredId

theorem consumeStep_out_gt (s : BrokerState) (c : String) (id : Nat)
    (h : id ∈ (consumeStep s c).2) : s.lastDeliveredId < id := by
  have h1 : id ∈ (xreadNew s c).2.map (fun e => e.eid) := h
  obtain ⟨e, he, heq⟩ := List.mem_map.mp h1
  exact heq ▸ mem_xreadNew_batch s c e he

/-- Claim C2 (amended): the consume loop always reads with the new-entries selector
">", so it only ever fans out entries with id strictly above the group's
lastDeliveredId; an entry already delivered (id at or below lastDeliveredId) that
sits unacknowledged in the pending list is never fanned out again by any number of
loop iterations — nothing in the loop re-reads or claims pending entries. -/
theorem log_unacked_never_redelivered (s : BrokerState) (c : String) (id n : Nat)
    (h : id ≤ s.lastDeliveredId) : id ∉ consumeRun s c n := by
  induction n generalizing s with
  | zero => simp [consumeRun]
  | succ m ih =>
      intro hmem
      rcases List.mem_append.mp hmem with hout | hrest
      · exact absurd (consumeStep_out_gt s c id hout) (Nat.not_lt.mpr h)
      · exact ih (consumeStep s c).1
          (Nat.le_trans h (consumeStep_last_mono s c)) hrest

theorem log_unacked_never_redelivered_witness :
    1 ≤ pendingS0.lastDeliveredId ∧ 1 ∉ consumeRun pendingS0 ("consumer-101") 3 :=
  ⟨by decide, log_unacked_never_redelivered pendingS0 ("consumer-101") 1 3 (by decide)⟩

/-- Claim C2 counterexample: entry 1 is pending (delivered to consumer-100, never
acknowledged), yet a consume iteration — including one by a restarted process with a
fresh consumer name — returns no entries and leaves the broker state unchanged, so
the pending entry is never redelivered and the read does not resume from it. -/
theorem log_pending_never_redelivered_cex :
    (1, ("consumer-100")) ∈ pendingS0.pending
    ∧ consumeStep pendingS0 ("consumer-101") = (pendingS0, [])
    ∧ consumeRun pendingS0 ("consumer-101") 5 = [] := by
  decide

-- ===== Log variant: consumer loop vs the shutdown flag (claim C6) =====

-- Whole-process view for the log variant: the module-level shutdownInProgress flag
-- (src/unnamed/part_002 line 184) alongside the broker state.
structure LogServerState where
  shutdownInProgress : Bool
  broker : BrokerState
deriving DecidableEq

-- One pass of consumeStream's `while (true)` body.  The Bool result records whether
-- the loop continues afterwards; the body contains no break, no return and no test
-- of shutdownInProgress, so the result is the constant true and the flag is untouched.
def consumeIter (st : LogServerState) (consumer : String) : LogServerState × Bool :=
  ({ st with broker := (consumeStep st.broker consumer).1 }, true)

/-- Claim C6 (amended): the consume loop never observes the shutdown flag — one
iteration leaves the flag as it was, continues unconditionally, and drives the broker
state identically whatever the flag's value; the loop ends only because process.exit
in the shutdown handler terminates the whole process. -/
theorem consume_loop_ignores_shutdown_flag (b1 b2 : Bool) (s : BrokerState) (c : String) :
    (consumeIter { shutdownInProgress := b1, broker := s } c).2 = true
    ∧ (consumeIter { shutdownInProgress := b1, broker := s } c).1.shutdownInProgress = b1
    ∧ (consumeIter { shutdownInProgress := b1, broker := s } c).1.broker
      = (consumeIter { shutdownInProgress := b2, broker := s } c).1.broker :=
  ⟨rfl, rfl, rfl⟩

/-- Claim C6 counterexample: with shutdown already in progress (flag set), the consume
loop still elects to continue — the iteration does not exit, so the loop does not stop
after the current iteration in response to the shutdown handler. -/
theorem consume_loop_no_cancellation_cex :
    consumeIter { shutdownInProgress := true, broker := pendingS0 } ("consumer-100")
      = ({ shutdownInProgress := true, broker := pendingS0 }, true) := by
  decide

-- ===== Log variant: per-batch fan-out and acknowledgment order (claim C3) =====

-- Observable actions of the consume loop body, in program order.  emit id is a
-- successful io.emit("new-message", ...) for entry id; emitFail id is an io.emit
-- that throws; ack id is the awaited XACK; logErr is the catch-block error log;
-- sleep would be a backoff delay (the source has none); exitProc a process exit.
inductive LoopAct where
  | emit (id : Nat)
  | emitFail (id : Nat)
  | ack (id : Nat)
  | logErr
  | sleep
  | exitProc (code : Nat)
deriving DecidableEq

-- The `for (const [id, fields] of messages)` loop (src/unnamed/part_002 lines
-- 103-113): for each entry, emit then await xack; a throw from io.emit aborts the
-- loop (the exception propagates to the surrounding try/catch), so neither the
-- failing entry nor any later entry of the batch is acknowledged.
def processMessages (emitOk : Nat → Bool) : List (Nat × List String) → List LoopAct
  | [] => []
  | p :: rest =>
      if emitOk p.1 then
        LoopAct.emit p.1 :: LoopAct.ack p.1 :: processMessages emitOk rest
      else
        [LoopAct.emitFail p.1]

def acksOf (tr : List LoopAct) : List Nat :=
  tr.filterMap (fun a => match a with | LoopAct.ack id => some id | _ => none)

theorem acksOf_processMessages (f : Nat → Bool) (batch : List (Nat × List String)) :
    acksOf (processMessages f batch) = (batch.takeWhile (fun p => f p.1)).map Prod.fst := by
  induction batch with
  | nil => rfl
  | cons p rest ih =>
      by_cases h : f p.1
      · simp [processMessages, h, acksOf, List.takeWhile_cons] at ih ⊢
        exact ih
      · simp [processMessages, h, acksOf, List.takeWhile_cons]

theorem processMessages_ack_split (f : Nat → Bool) :
    ∀ (batch : List (Nat × List String)) (t1 : List LoopAct) (id : Nat) (t2 : List LoopAct),
      processMessages f batch = t1 ++ LoopAct.ack id :: t2 → LoopAct.emit id ∈ t1 := by
  intro batch
  induction batch with
  | nil => intro t1 id t2 h; simp [processMessages] at h
  | cons p rest ih =>
      intro t1 id t2 h
      by_cases hf : f p.1
      · simp only [processMessages, hf, if_pos] at h
        cases t1 with
        | nil => simp at h
        | cons x t1' =>
            rw [List.cons_append] at h
            obtain ⟨hx, h2⟩ := List.cons.injEq .. ▸ h
            cases t1' with
            | nil =>
                simp at h2
                have hgoal : LoopAct.emit id = x := h2.1 ▸ hx
                simp [hgoal]
            | cons y t1'' =>
                rw [List.cons_append] at h2
                obtain ⟨hy, h3⟩ := List.cons.injEq .. ▸ h2
                have := ih t1'' id t2 h3
                simp [this]
      · simp only [processMessages, hf, if_neg, not_false_iff] at h
        cases t1 with
        | nil => simp at h
        | cons x t1' =>
            rw [List.cons_append] at h
            obtain ⟨hx, h2⟩ := List.cons.injEq .. ▸ h
            simp at h2

/-- Claim C3: in each consumed batch the acknowledged ids are exactly the prefix of
the batch whose local fan-out succeeded — the first entry whose fan-out throws, and
every entry after it, is not acknowledged — and wherever an acknowledgment appears in
the action trace, the successful fan-out of that same entry appears strictly before
it. -/
theorem log_mode_ack_after_fanout (f : Nat → Bool) (batch : List (Nat × List String)) :
    acksOf (processMessages f batch) = (batch.takeWhile (fun p => f p.1)).map Prod.fst
    ∧ ∀ (t1 : List LoopAct) (id : Nat) (t2 : List LoopAct),
        processMessages f batch = t1 ++ LoopAct.ack id :: t2 → LoopAct.emit id ∈ t1 :=
  ⟨acksOf_processMessages f batch,
   fun t1 id t2 h => processMessages_ack_split f batch t1 id t2 h⟩

theorem log_mode_ack_after_fanout_witness :
    acksOf (processMessages (fun i => i != 2) [(1, []), (2, []), (3, [])]) = [1]
    ∧ LoopAct.emit 1 ∈ [LoopAct.emit 1] :=
  ⟨(log_mode_ack_after_fanout (fun i => i != 2) [(1, []), (2, []), (3, [])]).1.trans
      (by decide),
   (log_mode_ack_after_fanout (fun i => i != 2) [(1, []), (2, []), (3, [])]).2
      [LoopAct.emit 1] 1 [LoopAct.emitFail 2] (by decide)⟩

-- ===== Log variant: the try/catch around one loop iteration (claim C8) =====

-- One pass of consumeStream's try/catch body, given what the blocking read produced:
-- a thrown error (Except.error), a timeout with no batch (ok none), or a batch
-- (ok some).  Any exception — from the read or from an io.emit inside the for loop —
-- lands in the catch block, which only logs; the catch contains no process.exit, no
-- delay/backoff call, and control falls through so the while loop immediately retries.
def consumeIterE (readResult : Except String (Option (List (Nat × List String))))
    (emitOk : Nat → Bool) : List LoopAct × Bool :=
  match readResult with
  | Except.error _ => ([LoopAct.logErr], true)
  | Except.ok none => ([], true)
  | Except.ok (some batch) =>
      (processMessages emitOk batch ++
        (if batch.all (fun p => emitOk p.1) then [] else [LoopAct.logErr]), true)

theorem processMessages_shape (f : Nat → Bool) :
    ∀ (batch : List (Nat × List String)) (a : LoopAct), a ∈ processMessages f batch →
      (∃ i, a = LoopAct.emit i) ∨ (∃ i, a = LoopAct.ack i) ∨ (∃ i, a = LoopAct.emitFail i) := by
  intro batch
  induction batch with
  | nil => intro a h; simp [processMessages] at h
  | cons p rest ih =>
      intro a h
      by_cases hf : f p.1
      · simp only [processMessages, hf, if_pos, List.mem_cons] at h
        rcases h with h | h | h
        · exact Or.inl ⟨p.1, h⟩
        · exact Or.inr (Or.inl ⟨p.1, h⟩)
        · exact ih a h
      · simp [processMessages, hf] at h
        exact Or.inr (Or.inr ⟨p.1, h⟩)

theorem mem_consumeIterE_shape (r : Except String (Option (List (Nat × List String))))
    (f : Nat → Bool) (a : LoopAct) (h : a ∈ (consumeIterE r f).1) :
    a = LoopAct.logErr ∨ (∃ i, a = LoopAct.emit i) ∨ (∃ i, a = LoopAct.ack i)
    ∨ (∃ i, a = LoopAct.emitFail i) := by
  match r with
  | Except.error _ => simp [consumeIterE] at h; exact Or.inl h
  | Except.ok none => simp [consumeIterE] at h
  | Except.ok (some batch) =>
      simp only [consumeIterE] at h
      rcases List.mem_append.mp h with h1 | h2
      · exact Or.inr (processMessages_shape f batch a h1)
      · rcases hb : batch.all (fun p => f p.1) with _ | _ <;> rw [hb] at h2 <;> simp at h2
        exact Or.inl h2

/-- Claim C8 (amended): every error surfaced inside the consume loop body is caught
and logged, the loop continues (so no such error terminates the process: the
iteration's actions never include a process exit), and the retry is immediate — the
catch block performs no backoff delay before the next iteration. -/
theorem consume_loop_errors_nonfatal (r : Except String (Option (List (Nat × List String))))
    (f : Nat → Bool) (msg : String) (c : Nat) :
    (consumeIterE r f).2 = true
    ∧ LoopAct.exitProc c ∉ (consumeIterE r f).1
    ∧ LoopAct.sleep ∉ (consumeIterE r f).1
    ∧ LoopAct.logErr ∈ (consumeIterE (Except.error msg) f).1 := by
  refine ⟨?_, ?_, ?_, ?_⟩
  · match r with
    | Except.error _ => rfl
    | Except.ok none => rfl
    | Except.ok (some batch) => rfl
  · intro h
    rcases mem_consumeIterE_shape r f (LoopAct.exitProc c) h with h1 | ⟨i, h1⟩ | ⟨i, h1⟩ | ⟨i, h1⟩ <;>
      exact LoopAct.noConfusion h1
  · intro h
    rcases mem_consumeIterE_shape r f LoopAct.sleep h with h1 | ⟨i, h1⟩ | ⟨i, h1⟩ | ⟨i, h1⟩ <;>
      exact LoopAct.noConfusion h1
  · simp [consumeIterE]

theorem consume_loop_errors_nonfatal_witness :
    LoopAct.sleep ∉ (consumeIterE (Except.error ("read ECONNRESET")) (fun _ => true)).1
    ∧ LoopAct.logErr ∈ (consumeIterE (Except.error ("read ECONNRESET")) (fun _ => true)).1 :=
  ⟨(consume_loop_errors_nonfatal (Except.error ("read ECONNRESET")) (fun _ => true)
      ("read ECONNRESET") 0).2.2.1,
   (consume_loop_errors_nonfatal (Except.error ("read ECONNRESET")) (fun _ => true)
      ("read ECONNRESET") 0).2.2.2⟩

/-- Claim C8 counterexample: a concrete read error is caught and logged and the loop
retries, but the iteration performs no backoff action whatsoever before the retry —
the actions are exactly one error log — so the error is not "retried with backoff". -/
theorem consume_loop_no_backoff_cex :
    consumeIterE (Except.error ("read ECONNRESET")) (fun _ => true) = ([LoopAct.logErr], true)
    ∧ LoopAct.sleep ∉ (consumeIterE (Except.error ("read ECONNRESET")) (fun _ => true)).1 := by
  exact ⟨rfl, by decide⟩

-- ===== Graceful shutdown (claim C5; src/unnamed/part_002 lines 184-218, identical
-- in src/unnamed/part_001 and src/unnamed/part_003 up to the quit step) =====

inductive ShutEffect where
  | warnAlready
  | infoLog
  | disconnectAllSockets
  | closeServer
  | quitBrokerClients
  | errLog
  | exitProc (code : Nat)
deriving DecidableEq

-- Effects of the drain body given where (if anywhere) it throws: none = completes;
-- some 0 = the socket-disconnect step throws; some 1 = fastify.close() throws;
-- some k (k ≥ 2) = the broker-client quit step throws.  A throw jumps to the catch,
-- which logs the error and exits 1; completion exits 0.
def drainEffects : Option Nat → List ShutEffect
  | none =>
      [ShutEffect.infoLog, ShutEffect.disconnectAllSockets, ShutEffect.infoLog,
       ShutEffect.closeServer, ShutEffect.infoLog, ShutEffect.quitBrokerClients,
       ShutEffect.infoLog, ShutEffect.infoLog, ShutEffect.exitProc 0]
  | some 0 =>
      [ShutEffect.infoLog, ShutEffect.errLog, ShutEffect.exitProc 1]
  | some 1 =>
      [ShutEffect.infoLog, ShutEffect.disconnectAllSockets, ShutEffect.infoLog,
       ShutEffect.errLog, ShutEffect.exitProc 1]
  | some (Nat.succ (Nat.succ _)) =>
      [ShutEffect.infoLog, ShutEffect.disconnectAllSockets, ShutEffect.infoLog,
       ShutEffect.closeServer, ShutEffect.infoLog, ShutEffect.errLog,
       ShutEffect.exitProc 1]

-- gracefulShutdown(signal): if shutdownInProgress, warn and return; otherwise set the
-- flag and run the drain.  Returns the flag afterwards and the effects performed.
def gracefulShutdown (inProgress : Bool) (failAt : Option Nat) : Bool × List ShutEffect :=
  if inProgress then (inProgress, [ShutEffect.warnAlready])
  else (true, drainEffects failAt)

-- A sequence of n signal deliveries, each invoking gracefulShutdown, threading the
-- shutdownInProgress flag.
def runSignals (failAt : Option Nat) : Nat → Bool → List ShutEffect
  | 0, _ => []
  | Nat.succ n, flag =>
      (gracefulShutdown flag failAt).2 ++ runSignals failAt n (gracefulShutdown flag failAt).1

theorem runSignals_inProgress (failAt : Option Nat) (n : Nat) :
    (runSignals failAt n true).countP (fun e => e == ShutEffect.disconnectAllSockets) = 0 := by
  induction n with
  | zero => rfl
  | succ m ih =>
      show (((gracefulShutdown true failAt).2 ++
        runSignals failAt m (gracefulShutdown true failAt).1).countP
          (fun e => e == ShutEffect.disconnectAllSockets)) = 0
      rw [List.countP_append]
      simpa [gracefulShutdown] using ih

/-- Claim C5: a second invocation of the termination handler while shutdown is in
progress only warns and returns (no drain effects, no exit); a first invocation whose
drain completes performs the full drain and exits 0; a drain that throws anywhere
ends with exit 1; and across any positive number of repeated signals the
socket-disconnect drain step runs exactly once. -/
theorem graceful_shutdown_once (failAt : Option Nat) (n k : Nat) :
    gracefulShutdown true failAt = (true, [ShutEffect.warnAlready])
    ∧ (gracefulShutdown false none).2.getLast? = some (ShutEffect.exitProc 0)
    ∧ ShutEffect.disconnectAllSockets ∈ (gracefulShutdown false none).2
    ∧ ShutEffect.closeServer ∈ (gracefulShutdown false none).2
    ∧ ShutEffect.quitBrokerClients ∈ (gracefulShutdown false none).2
    ∧ (gracefulShutdown false (some k)).2.getLast? = some (ShutEffect.exitProc 1)
    ∧ (1 ≤ n →
        (runSignals none n false).countP (fun e => e == ShutEffect.disconnectAllSockets) = 1) := by
  refine ⟨by simp [gracefulShutdown], by decide, by decide, by decide, by decide, ?_, ?_⟩
  · match k with
    | 0 => decide
    | 1 => decide
    | Nat.succ (Nat.succ m) => rfl
  · intro hn
    match n, hn with
    | Nat.succ m, _ =>
        show (((gracefulShutdown false none).2 ++
          runSignals none m (gracefulShutdown false none).1).countP
            (fun e => e == ShutEffect.disconnectAllSockets)) = 1
        rw [List.countP_append]
        have hfst : (gracefulShutdown false none).1 = true := rfl
        have h1 : ((gracefulShutdown false none).2).countP
            (fun e => e == ShutEffect.disconnectAllSockets) = 1 := by decide
        have h2 := runSignals_inProgress none m
        rw [hfst, h1, h2]
    | 0, h => exact absurd h (by decide)

theorem graceful_shutdown_once_witness :
    1 ≤ 2 ∧ (runSignals none 2 false).countP (fun e => e == ShutEffect.disconnectAllSockets) = 1 :=
  ⟨by decide, (graceful_shutdown_once none 2 0).2.2.2.2.2.2 (by decide)⟩

-- ===== Consumer-group creation (claim C7; src/unnamed/part_002 lines 61-82) =====

structure GroupErr where
  message : String
deriving DecidableEq

inductive InitOutcome where
  | ok
  | exitProc (code : Nat)
deriving DecidableEq

def charsInclude (needle : List Char) : List Char → Bool
  | [] => needle.isEmpty
  | c :: rest => List.isPrefixOf needle (c :: rest) || charsInclude needle rest

-- JavaScript's String.prototype.includes, used by err.message.includes("BUSYGROUP").
def strIncludes (needle hay : String) : Bool :=
  charsInclude needle.toList hay.toList

-- initializeStream: XGROUP CREATE ... MKSTREAM; on success continue; on an error whose
-- message includes "BUSYGROUP" log and continue; on any other error log and exit 1.
def initializeStream (createResult : Except GroupErr Unit) : InitOutcome :=
  match createResult with
  | Except.ok _ => InitOutcome.ok
  | Except.error err =>
      if strIncludes ("BUSYGROUP") err.message then InitOutcome.ok
      else InitOutcome.exitProc 1

/-- Claim C7: group creation succeeding, or failing with a BUSYGROUP
("group already exists") error, lets startup continue; any other group-creation
error makes the process exit with status 1. -/
theorem init_group_busygroup_ok :
    initializeStream (Except.ok ()) = InitOutcome.ok
    ∧ (∀ e : GroupErr, strIncludes ("BUSYGROUP") e.message = true →
        initializeStream (Except.error e) = InitOutcome.ok)
    ∧ (∀ e : GroupErr, strIncludes ("BUSYGROUP") e.message = false →
        initializeStream (Except.error e) = InitOutcome.exitProc 1) := by
  refine ⟨rfl, ?_, ?_⟩
  · intro e h; simp [initializeStream, h]
  · intro e h; simp [initializeStream, h]

theorem init_group_busygroup_ok_witness :
    initializeStream (Except.error { message := ("BUSYGROUP Consumer Group name already exists") })
      = InitOutcome.ok
    ∧ initializeStream (Except.error { message := ("ERR wrong number of arguments") })
      = InitOutcome.exitProc 1 :=
  ⟨(init_group_busygroup_ok).2.1
      { message := ("BUSYGROUP Consumer Group name already exists") } (by decide),
   (init_group_busygroup_ok).2.2
      { message := ("ERR wrong number of arguments") } (by decide)⟩

-- ===== Rooms variant (claim C4; src/unnamed/part_003) =====

def GLOBAL_ROOM : String := "global-room"

-- Observable effects of the room handlers.  serverBroadcast is io.serverSideEmit
-- (the outgoing cluster-wide notification); localJoin is socket.join (a local
-- connection-registry change); logJoined/logLeft are the console logs.
inductive RoomEffect where
  | logJoined (room id : String)
  | logLeft (room id : String)
  | serverBroadcast (event room id : String)
  | localJoin (room id : String)
deriving DecidableEq

-- Listener on the local adapter's "join-room" event (fires when a local socket joins):
-- when the room is not the socket's own personal room, log and broadcast to all nodes.
def adapterJoinRoom (room id : String) : List RoomEffect :=
  if room != id then
    [RoomEffect.logJoined room id, RoomEffect.serverBroadcast ("join-room") room id]
  else []

def adapterLeaveRoom (room id : String) : List RoomEffect :=
  if room != id then
    [RoomEffect.logLeft room id, RoomEffect.serverBroadcast ("leave-room") room id]
  else []

-- io.on("join-room") handler: receives the server-side (remote peer) notification;
-- the body is a single console.log.
def remoteJoinRoom (room id : String) : List RoomEffect :=
  [RoomEffect.logJoined room id]

-- io.on("leave-room") handler: likewise a single console.log.
def remoteLeaveRoom (room id : String) : List RoomEffect :=
  [RoomEffect.logLeft room id]

/-- Claim C4: the handlers for remote join/leave notifications perform exactly one
log action — they never emit an outgoing server-side broadcast and never touch the
local connection registry; outgoing broadcasts come only from the local adapter's
join-room/leave-room listeners. -/
theorem remote_room_handler_only_logs (room id : String) :
    remoteJoinRoom room id = [RoomEffect.logJoined room id]
    ∧ remoteLeaveRoom room id = [RoomEffect.logLeft room id]
    ∧ (∀ e r i, RoomEffect.serverBroadcast e r i ∉ remoteJoinRoom room id
        ∧ RoomEffect.serverBroadcast e r i ∉ remoteLeaveRoom room id)
    ∧ (∀ r i, RoomEffect.localJoin r i ∉ remoteJoinRoom room id
        ∧ RoomEffect.localJoin r i ∉ remoteLeaveRoom room id) := by
  refine ⟨rfl, rfl, ?_, ?_⟩
  · intro e r i
    exact ⟨by simp [remoteJoinRoom], by simp [remoteLeaveRoom]⟩
  · intro r i
    exact ⟨by simp [remoteJoinRoom], by simp [remoteLeaveRoom]⟩

theorem remote_room_handler_only_logs_witness :
    RoomEffect.serverBroadcast ("join-room") ("global-room") ("s1")
      ∉ remoteJoinRoom ("global-room") ("s1") :=
  ((remote_room_handler_only_logs ("global-room") ("s1")).2.2.1
    ("join-room") ("global-room") ("s1")).1

-- ===== Log variant: flat field-list encoding (claim C9; src/unnamed/part_002) =====

-- The message object built in the connection handler and spread into XADD as
-- "id", id, "message", message, "timestamp", timestamp.
structure ChatMessage where
  id : String
  message : String
  timestamp : String
deriving DecidableEq

def xaddFields (m : ChatMessage) : List String :=
  [("id"), m.id, ("message"), m.message, ("timestamp"), m.timestamp]

-- The pairwise decoding loop in consumeStream: for (i = 0; i < fields.length; i += 2)
-- message[fields[i]] = fields[i + 1].  A trailing unpaired key would read the
-- out-of-range fields[i + 1] as undefined, modelled by none.
def decodeFields : List String → List (String × Option String)
  | [] => []
  | [k] => [(k, none)]
  | k :: v :: rest => (k, some v) :: decodeFields rest

/-- Claim C9: decoding the flat field list appended at publish time reproduces
exactly the original id/message/timestamp mapping — the decoded association list is
precisely those three keys, in order and without duplicates, each bound to the
byte-identical original value. -/
theorem fields_roundtrip (m : ChatMessage) :
    decodeFields (xaddFields m)
      = [(("id"), some m.id), (("message"), some m.message), (("timestamp"), some m.timestamp)]
    ∧ (decodeFields (xaddFields m)).map Prod.fst = [("id"), ("message"), ("timestamp")]
    ∧ ((decodeFields (xaddFields m)).map Prod.fst).Nodup := by
  refine ⟨rfl, rfl, ?_⟩
  show List.Nodup [("id"), ("message"), ("timestamp")]
  decide
